import Mathlib

/-!
Verification development for the diffbox job-orchestration subsystem.

Shallow embedding of:
- `internal/queue/queue.go` — the Redis-stream consumer loop (`RedisQueue.Consume`);
- `internal/worker/manager.go` — the worker-pool supervisor (`Manager.SubmitJob`,
  `Manager.spawnWorker`'s exit-monitor goroutine);
- `internal/db/db.go` — the job ledger (`CreateJob`, `UpdateJobProgress`,
  `UpdateJobStatus`, `CompleteJob`, `FailJob`, `GetJob`);
- `internal/api/websocket.go` — the WebSocket hub (`WebSocketHub.Run`'s broadcast
  case, `Client.readPump`'s subscribe/unsubscribe handling);
- `internal/api/workflows.go` — the submission handlers (`handleI2VSubmit`,
  `handleSVISubmit`, `handleQwenSubmit`);
- `cmd/server/main.go` — the worker-callback wiring (`Manager.SetCallbacks`).

Modelling conventions: Go `float64` job progress is embedded as `ℚ` (the ledger
only stores and compares progress values, it never does arithmetic on them, so
the embedding is exact on all values the code manipulates); SQL timestamps are
abstract `Nat` ticks; channels and pipes are lists of the values written to
them; the Redis stream consumer's effect on the broker is recorded as explicit
lists of handled, acknowledged and re-enqueued messages.
-/

namespace Diffbox

/-! ## Queue consumer (`internal/queue/queue.go`, `RedisQueue.Consume`) -/

namespace Queue

/-- One Redis stream message as seen by the consumer loop: its stream id and
`message.Values["data"]` — `none` models both an absent `"data"` key and a
value that fails the `.(string)` type assertion. -/
structure XMessage where
  id : String
  dataField : Option String
  deriving Repr, DecidableEq

/-- The observable effect of processing one message in the `Consume` loop body:
which `(message.ID, payload)` pairs were passed to the handler, which message
ids were acknowledged with `XAck`, and which payloads were re-enqueued onto the
stream. -/
structure ConsumeEffect (α : Type) where
  handled : List (String × α)
  acked : List String
  requeued : List α
  deriving Repr, DecidableEq

/-- Embeds the body of the message loop in `RedisQueue.Consume`
(internal/queue/queue.go). `decode` models `json.Unmarshal` of the `"data"`
string into the payload map; `handler` returns `true` when the Go handler
returns a nil error.

Source behaviour: a missing/non-string `"data"` value → `continue` (nothing
happens); undecodable JSON → log and `continue`; handler error → log and
`continue` (the `TODO: Handle error (retry, dead letter, etc.)` branch — no
ack, no requeue); handler success → `XAck`. -/
def consumeMessage {α : Type} (decode : String → Option α)
    (handler : String → α → Bool) (msg : XMessage) : ConsumeEffect α :=
  match msg.dataField with
  | none => ⟨[], [], []⟩
  | some s =>
    match decode s with
    | none => ⟨[], [], []⟩
    | some payload =>
      if handler msg.id payload then ⟨[(msg.id, payload)], [msg.id], []⟩
      else ⟨[(msg.id, payload)], [], []⟩

/-- A concrete payload decoder for witnesses/counterexamples: the payload is
the raw string itself when it is nonempty, undecodable otherwise. -/
def demoDecode (s : String) : Option String :=
  if s = "" then none else some s

end Queue

/-! ## Worker pool supervisor (`internal/worker/manager.go`) -/

namespace WorkerPool

/-- One worker slot as the supervisor sees it. The Go `Worker` struct carries
`id`, `cmd`, `stdin`, `stdout`, `stderr`, `running`; the process/pipe handles
have no state the supervisor reads besides what is modelled here. Notably the
struct has NO current-job field of any kind. -/
structure Worker where
  id : Nat
  running : Bool
  deriving Repr, DecidableEq

/-- The supervisor (`Manager`): the worker slice and the round-robin cursor.
The config, mutex and the three callbacks carry no dispatch-relevant state. -/
structure Manager where
  workers : List Worker
  nextWorker : Nat
  deriving Repr, DecidableEq

/-- The line-protocol message written to a worker's stdin by `SubmitJob`:
`WorkerMessage{Type: "job", JobID: job.ID, Data: <marshalled job>}`. The
marshalled job is fully determined by the `JobRequest`, so we keep the job id
(the field the protocol dispatches on). -/
structure WorkerMessage where
  type : String
  jobID : String
  deriving Repr, DecidableEq

/-- A job submission (`JobRequest{ID, Type, Params}`); params are opaque. -/
structure JobRequest where
  id : String
  jobType : String
  params : String
  deriving Repr, DecidableEq

/-- Embeds the scan loop of `Manager.SubmitJob`:
`for i := 0; i < len(m.workers); i++ { idx := (m.nextWorker + i) % len; if
m.workers[idx].running { ... break } }` — `i` is the current loop counter and
`rem` the number of iterations left. Returns the selected index. -/
def scanWorkers (ws : List Worker) (next : Nat) : Nat → Nat → Option Nat
  | _, 0 => none
  | i, rem + 1 =>
    let idx := (next + i) % ws.length
    match ws[idx]? with
    | some w => if w.running then some idx else scanWorkers ws next (i + 1) rem
    | none => none

/-- The round-robin search of `SubmitJob`: first running worker scanning from
the cursor with wraparound. -/
def findRunning (ws : List Worker) (next : Nat) : Option Nat :=
  scanWorkers ws next 0 ws.length

/-- Liveness of the worker at a slot index (`m.workers[idx].running`), used to
state properties of the scan; out-of-range indices count as not live. -/
def runningAt (ws : List Worker) (idx : Nat) : Bool :=
  match ws[idx]? with
  | some w => w.running
  | none => false

/-- Embeds `Manager.SubmitJob` (internal/worker/manager.go). On success it
returns the updated manager (only the cursor changes), the selected worker's
index, and the message written to that worker's stdin. `json.Marshal` of a
`JobRequest` cannot fail, and a stdin-pipe write failure is an environmental
error that performs no state change before returning, so the two error-return
branches after selection are not separate model states. -/
def submitJob (m : Manager) (job : JobRequest) :
    Except String (Manager × Nat × WorkerMessage) :=
  if m.workers.length = 0 then
    .error "no workers available"
  else
    match findRunning m.workers m.nextWorker with
    | none => .error "no running workers available"
    | some idx =>
      .ok ({ m with nextWorker := (idx + 1) % m.workers.length }, idx,
           ⟨"job", job.id⟩)

/-- Embeds the exit-monitor goroutine installed by `Manager.spawnWorker`:
`go func() { err := cmd.Wait(); worker.running = false; log.Printf(...) }()`.
It flips the exited worker's `running` flag and does nothing else: the second
component is the list of job ids signalled for requeue (the goroutine emits
none — there is no requeue callback in the code), and the worker slice is
otherwise untouched (no replacement spawn). -/
def handleWorkerExit (m : Manager) (slot : Nat) : Manager × List String :=
  match m.workers[slot]? with
  | some w => ({ m with workers := m.workers.set slot { w with running := false } }, [])
  | none => (m, [])

end WorkerPool

/-! ## Job ledger (`internal/db/db.go`) -/

namespace Ledger

/-- A row of the `jobs` table (`db.Job`). `progress REAL` is embedded as `ℚ`
(stored and compared, never computed with); `DATETIME` columns as `Nat` ticks;
NULLable text columns default to the empty string. -/
structure Job where
  id : String
  jobType : String
  status : String
  progress : ℚ
  stage : String
  params : String
  output : String
  errorMsg : String
  createdAt : Nat
  updatedAt : Nat
  deriving Repr, DecidableEq

/-- The `jobs` table: rows in insertion order, `id` is the primary key. -/
abbrev DB := List Job

/-- Embeds `DB.CreateJob`: `INSERT INTO jobs (id, type, status, params,
created_at, updated_at) VALUES (...)` with `progress` defaulting to 0 and the
remaining text columns NULL. A duplicate primary key makes the INSERT fail
(`none`) leaving the table unchanged. -/
def createJob (db : DB) (id jobType status params : String) (now : Nat) :
    Option DB :=
  if db.any (fun j => j.id = id) then none
  else some (db ++ [⟨id, jobType, status, 0, "", params, "", "", now, now⟩])

/-- Embeds `DB.GetJob`: `SELECT ... FROM jobs WHERE id = ?`. -/
def getJob (db : DB) (id : String) : Option Job :=
  db.find? (fun j => j.id = id)

/-- Embeds `DB.UpdateJobProgress`: `UPDATE jobs SET progress = ?, stage = ?,
updated_at = ? WHERE id = ?` — unconditional on the matching row, a no-op when
the id is absent. -/
def updateJobProgress (db : DB) (id : String) (progress : ℚ) (stage : String)
    (now : Nat) : DB :=
  db.map (fun j =>
    if j.id = id then { j with progress := progress, stage := stage, updatedAt := now }
    else j)

/-- Embeds `DB.UpdateJobStatus`: `UPDATE jobs SET status = ?, updated_at = ?
WHERE id = ?`. -/
def updateJobStatus (db : DB) (id status : String) (now : Nat) : DB :=
  db.map (fun j =>
    if j.id = id then { j with status := status, updatedAt := now } else j)

/-- Embeds `DB.CompleteJob`: `UPDATE jobs SET status = 'completed', output = ?,
updated_at = ? WHERE id = ?` — unconditional, whatever the row's prior status. -/
def completeJob (db : DB) (id output : String) (now : Nat) : DB :=
  db.map (fun j =>
    if j.id = id then
      { j with status := "completed", output := output, updatedAt := now }
    else j)

/-- Embeds `DB.FailJob`: `UPDATE jobs SET status = 'failed', error = ?,
updated_at = ? WHERE id = ?`. -/
def failJob (db : DB) (id errorMsg : String) (now : Nat) : DB :=
  db.map (fun j =>
    if j.id = id then
      { j with status := "failed", errorMsg := errorMsg, updatedAt := now }
    else j)

end Ledger

/-! ## WebSocket event hub (`internal/api/websocket.go`) -/

namespace Hub

/-- The capacity of each client's private outbound buffer:
`send: make(chan []byte, 256)` in `handleWebSocket`. -/
def sendCap : Nat := 256

/-- A connected observer (`Client`). `cid` models the `*Client` pointer
identity used as the key of `hub.clients`; `send` is the content of the
buffered outbound channel (oldest first); `subscribedTo` the keys of the
client's `subscribedTo map[string]bool`. -/
structure Client where
  cid : Nat
  send : List String
  subscribedTo : List String
  deriving Repr, DecidableEq

/-- Embeds the `case message := <-h.broadcast` arm of `WebSocketHub.Run`: for
every registered client, try a non-blocking send onto its buffered channel
(`select { case client.send <- message: default: close(client.send);
delete(h.clients, client) } }`). First component: the clients still registered
afterwards (those with buffer space, event appended). Second component: the
cids whose channels were closed — their `writePump` terminates and closes the
connection. -/
def broadcastStep (clients : List Client) (message : String) :
    List Client × List Nat :=
  clients.foldr
    (fun c acc =>
      if c.send.length < sendCap then
        ({ c with send := c.send ++ [message] } :: acc.1, acc.2)
      else
        (acc.1, c.cid :: acc.2))
    ([], [])

/-- An inbound control frame after `readPump`'s two-stage decode: the
`WSMessage.Type` switch recognises `subscribe`/`unsubscribe` (with the decoded
`SubscribeMessage.JobIDs`); any other type falls through the switch, and
undecodable JSON is skipped (`continue`). -/
inductive Frame where
  | subscribe (jobIDs : List String)
  | unsubscribe (jobIDs : List String)
  | other
  | malformed
  deriving Repr, DecidableEq

/-- Embeds the body of `Client.readPump`'s message switch: `subscribe` sets
`c.subscribedTo[jobID] = true` for each id, `unsubscribe` deletes each id;
everything else leaves the client untouched. -/
def handleFrame (c : Client) (f : Frame) : Client :=
  match f with
  | .subscribe ids =>
    { c with subscribedTo :=
        ids.foldl (fun s j => if j ∈ s then s else s ++ [j]) c.subscribedTo }
  | .unsubscribe ids =>
    { c with subscribedTo :=
        ids.foldl (fun s j => s.filter (fun k => k ≠ j)) c.subscribedTo }
  | .other => c
  | .malformed => c

/-- Low-equivalence of clients for the subscription-noninterference property:
equal identity and equal outbound buffer, subscriptions unconstrained. -/
def SameExceptSubs (a b : Client) : Prop :=
  a.cid = b.cid ∧ a.send = b.send

end Hub

/-! ## Workflow submission handlers (`internal/api/workflows.go`) -/

namespace Api

/-- The HTTP outcome of a submission handler: the 200 JSON
`JobResponse{ID, Status: "pending"}` or an `http.Error` with its status code. -/
inductive SubmitResponse where
  | ok (jobID : String)
  | httpError (msg : String) (code : Nat)
  deriving Repr, DecidableEq

/-- Post-state of one submission: the response written, the jobs table, and
the queue contents (stream name × enqueued job id; the enqueued map is fully
determined by the job id, type and request params). -/
structure SubmitOutcome where
  response : SubmitResponse
  db : Ledger.DB
  queued : List (String × String)
  deriving Repr, DecidableEq

/-- Embeds the common tail of `handleI2VSubmit`, `handleSVISubmit` and
`handleQwenSubmit` (the three handlers are textually identical from `jobID :=
uuid.New().String()` on, up to the workflow type string and the
already-defaulted params): persist the job with `db.CreateJob` (on error:
500 "Failed to create job", nothing else happens), then `queue.Enqueue("jobs",
job)` (on error: 500 "Failed to queue job" — the created ledger row is NOT
removed), else respond 200 pending. `enqueueOk` models whether the broker
accepts the append; `json.Marshal` of the request structs cannot fail. -/
def handleWorkflowSubmit (db : Ledger.DB) (queued : List (String × String))
    (jobID wfType paramsJSON : String) (enqueueOk : Bool) (now : Nat) :
    SubmitOutcome :=
  match Ledger.createJob db jobID wfType "pending" paramsJSON now with
  | none => ⟨.httpError "Failed to create job" 500, db, queued⟩
  | some db1 =>
    if enqueueOk then ⟨.ok jobID, db1, queued ++ [("jobs", jobID)]⟩
    else ⟨.httpError "Failed to queue job" 500, db1, queued⟩

end Api

/-! ## Worker-callback wiring (`cmd/server/main.go`, `SetCallbacks`) -/

namespace Server

/-- Progress report decoded from a worker's stdout
(`worker.ProgressUpdate`). -/
structure ProgressUpdate where
  jobID : String
  progress : ℚ
  stage : String
  deriving Repr, DecidableEq

/-- The state the wired callbacks can touch: the ledger and the hub's
broadcast log. Each broadcast is recorded as the envelope type together with
the job id it carries. -/
structure ServerState where
  db : Ledger.DB
  hubBroadcasts : List (String × String)
  deriving Repr, DecidableEq

/-- Embeds the progress callback wired in `main.go`'s
`workerManager.SetCallbacks(...)`, reached via `Manager.handleWorkerOutput`'s
`case "progress"`: it ONLY calls `wsHub.BroadcastJobProgress`, which marshals
a `WSMessage{Type: "job:progress", ...}` onto the hub's broadcast channel.
No ledger operation appears in the callback. -/
def onProgressCallback (st : ServerState) (p : ProgressUpdate) : ServerState :=
  { st with hubBroadcasts := st.hubBroadcasts ++ [("job:progress", p.jobID)] }

end Server

/-! ## Concrete data for witnesses and counterexamples -/

/-- Witness pool for the round-robin theorem: slot 0 dead, slot 1 live,
cursor at 0. -/
def rrDemoManager : WorkerPool.Manager := ⟨[⟨0, false⟩, ⟨1, true⟩], 0⟩

/-- A ledger row that already reached the terminal `completed` status with
full progress. -/
def doneRow : Ledger.Job :=
  ⟨"j", "i2v", "completed", 1, "done", "{}", "out.mp4", "", 0, 3⟩

/-- A freshly created `pending` ledger row for job `X`. -/
def pendingRowX : Ledger.Job :=
  ⟨"X", "i2v", "pending", 0, "", "{}", "", "", 0, 0⟩

/-- Hub observer with an empty outbound buffer. -/
def wcOpen1 : Hub.Client := ⟨1, [], []⟩

/-- Hub observer whose outbound buffer is saturated (a stalled consumer). -/
def wcSat : Hub.Client := ⟨2, List.replicate Hub.sendCap "x", []⟩

/-- A second healthy hub observer. -/
def wcOpen3 : Hub.Client := ⟨3, [], []⟩

/-! ## Theorems -/

open Queue WorkerPool Ledger Hub Api Server

/-- Claim C1 (code bug): the claim says a handler failure on a
retry-counter-0 message re-enqueues the payload with counter 1 and then
acknowledges the original. Evaluating the embedded `Consume` loop body at such
a failing input — a well-formed message whose handler returns an error on its
first delivery — shows the code instead invokes the handler and then does
nothing: no re-enqueue and no acknowledgment (the `TODO: Handle error` branch),
leaving the original pending. -/
theorem consume_failure_drops_without_requeue_or_ack :
    consumeMessage demoDecode (fun _ _ => false) ⟨"1695-0", some "job-j1"⟩
      = ⟨[("1695-0", "job-j1")], [], []⟩ := by
  rfl

/-- Claim C8 (counterexample): the claim says a malformed payload is
acknowledged and dropped. On a message whose `data` string fails to decode
(and likewise on a missing `data` field) the consumer performs no action at
all: in particular `acked = []` — the message is never `XAck`-ed, it stays in
the consumer group's pending list. -/
theorem malformed_message_not_acked_cx :
    consumeMessage demoDecode (fun _ _ => true) ⟨"1700-0", some ""⟩
      = ⟨[], [], []⟩
    ∧ consumeMessage demoDecode (fun _ _ => true) ⟨"1700-1", none⟩
      = ⟨[], [], []⟩ := by
  exact ⟨rfl, rfl⟩

/-- Claim C8 (amended): for every message whose payload is malformed — the
`data` field is absent/non-string, or the JSON fails to decode — the consumer
skips the message without acknowledging it: the handler is never invoked,
nothing is re-enqueued, and no `XAck` is issued, so the original message
remains unacknowledged at the broker while the loop never reprocesses it. -/
theorem malformed_message_skipped_unacked {α : Type}
    (decode : String → Option α) (handler : String → α → Bool)
    (msg : XMessage)
    (hmal : msg.dataField = none
      ∨ ∃ s, msg.dataField = some s ∧ decode s = none) :
    consumeMessage decode handler msg = ⟨[], [], []⟩ := by
  rcases hmal with h | ⟨s, hs, hd⟩
  · simp [consumeMessage, h]
  · simp [consumeMessage, hs, hd]

/-- Witness for the amended C8 theorem at a concrete malformed message. -/
theorem malformed_message_skipped_unacked_witness :
    consumeMessage demoDecode (fun _ _ => true) ⟨"1701-0", some ""⟩
      = ⟨[], [], []⟩ :=
  malformed_message_skipped_unacked demoDecode (fun _ _ => true)
    ⟨"1701-0", some ""⟩ (Or.inr ⟨"", rfl, rfl⟩)

/-- Claim C2 (code bug): the claim says a worker exiting with a non-empty
`currentJobID` causes exactly one requeue signal for that job id and a
respawn at the same slot. The embedded exit monitor — evaluated at a pool
whose single worker exits while a job is in flight — only clears the `running`
flag: it emits zero requeue signals (the `Worker` struct has no current-job
field and the `Manager` no requeue callback) and spawns no replacement (the
slot is left with a dead worker). -/
theorem worker_exit_no_requeue_no_respawn :
    handleWorkerExit ⟨[⟨0, true⟩], 0⟩ 0 = (⟨[⟨0, false⟩], 0⟩, []) := by
  rfl

/-- Claim C3 (counterexample): with a pool containing exactly one live worker,
job `j1` is dispatched to worker 0, the pool state is left identical (nothing
records or later clears a current-job id), and a second job `j2` is then
immediately assigned to the same worker 0 — before any terminal
acknowledgment for `j1` could exist. This falsifies the claim that `j2` is
never assigned to the worker until its current-job-id is cleared. -/
theorem second_job_assigned_to_busy_worker_cx :
    submitJob ⟨[⟨0, true⟩], 0⟩ ⟨"j1", "i2v", "{}"⟩
      = .ok (⟨[⟨0, true⟩], 0⟩, 0, ⟨"job", "j1"⟩)
    ∧ submitJob ⟨[⟨0, true⟩], 0⟩ ⟨"j2", "i2v", "{}"⟩
      = .ok (⟨[⟨0, true⟩], 0⟩, 0, ⟨"job", "j2"⟩) := by
  exact ⟨rfl, rfl⟩

/-- Claim C3 (amended): with exactly one worker whose `running` flag is true,
every submitted job is assigned to that worker immediately — dispatch selects
on the liveness flag alone, and since no current-job bookkeeping exists, this
holds in particular for a second job submitted while the first is still in
flight (the post-dispatch pool state is unchanged except the cursor, which
wraps back to 0). -/
theorem single_live_worker_accepts_every_job (m : Manager) (w : Worker)
    (job : JobRequest) (hws : m.workers = [w]) (hrun : w.running = true) :
    submitJob m job = .ok ({ m with nextWorker := 0 }, 0, ⟨"job", job.id⟩) := by
  simp [submitJob, findRunning, hws, scanWorkers, hrun, Nat.mod_one]

/-- Witness for the amended C3 theorem: a one-worker pool right after a first
dispatch still accepts the next job at worker 0. -/
theorem single_live_worker_accepts_every_job_witness :
    submitJob ⟨[⟨0, true⟩], 0⟩ ⟨"j2", "i2v", "{}"⟩
      = .ok (⟨[⟨0, true⟩], 0⟩, 0, ⟨"job", "j2"⟩) :=
  single_live_worker_accepts_every_job ⟨[⟨0, true⟩], 0⟩ ⟨0, true⟩
    ⟨"j2", "i2v", "{}"⟩ rfl rfl

/-- Helper: when the scan loop comes back empty, every slot it visited was not
live. Offsets are counted from the loop counter `i` at entry. -/
theorem scanWorkers_none_sound (ws : List Worker) (next : Nat) (hne : ws ≠ []) :
    ∀ rem i, scanWorkers ws next i rem = none →
      ∀ k, k < rem → runningAt ws ((next + i + k) % ws.length) = false := by
  intro rem
  induction rem with
  | zero => intro i _ k hk; omega
  | succ rem ih =>
    intro i hscan k hk
    have hidx : (next + i) % ws.length < ws.length :=
      Nat.mod_lt _ (List.length_pos.mpr hne)
    cases hget : ws[(next + i) % ws.length]? with
    | none =>
      exact absurd (List.getElem?_eq_none_iff.mp hget) (by omega)
    | some w =>
      by_cases hrun : w.running
      · simp [scanWorkers, hget, hrun] at hscan
      · have hrec : scanWorkers ws next (i + 1) rem = none := by
          simpa [scanWorkers, hget, hrun] using hscan
        cases k with
        | zero =>
          simp only [Nat.add_zero, runningAt, hget]
          exact Bool.not_eq_true _ ▸ (by simpa using hrun)
        | succ k' =>
          have hstep := ih (i + 1) hrec k' (by omega)
          have harith : next + (i + 1) + k' = next + i + (k' + 1) := by omega
          rwa [harith] at hstep

/-- Helper: when the scan loop returns a slot, that slot is live, it lies at
some offset from the cursor within the scanned window, and every
earlier-visited slot was not live. -/
theorem scanWorkers_some_sound (ws : List Worker) (next : Nat) :
    ∀ rem i idx, scanWorkers ws next i rem = some idx →
      ∃ off, off < rem ∧ idx = (next + i + off) % ws.length
        ∧ runningAt ws idx = true
        ∧ ∀ k, k < off → runningAt ws ((next + i + k) % ws.length) = false := by
  intro rem
  induction rem with
  | zero => intro i idx hscan; simp [scanWorkers] at hscan
  | succ rem ih =>
    intro i idx hscan
    cases hget : ws[(next + i) % ws.length]? with
    | none => simp [scanWorkers, hget] at hscan
    | some w =>
      by_cases hrun : w.running
      · have hidx : idx = (next + i) % ws.length := by
          simp [scanWorkers, hget, hrun] at hscan
          omega
        refine ⟨0, by omega, by simpa using hidx, ?_, by omega⟩
        rw [hidx]
        simp [runningAt, hget, hrun]
      · have hrec : scanWorkers ws next (i + 1) rem = some idx := by
          simpa [scanWorkers, hget, hrun] using hscan
        obtain ⟨off, hoff, hidx, hliv, hprev⟩ := ih (i + 1) idx hrec
        refine ⟨off + 1, by omega, ?_, hliv, ?_⟩
        · have harith : next + (i + 1) + off = next + i + (off + 1) := by omega
          rwa [harith] at hidx
        · intro k hk
          cases k with
          | zero =>
            simp only [Nat.add_zero, runningAt, hget]
            exact Bool.not_eq_true _ ▸ (by simpa using hrun)
          | succ k' =>
            have hstep := hprev k' (by omega)
            have harith : next + (i + 1) + k' = next + i + (k' + 1) := by omega
            rwa [harith] at hstep

/-- Helper: with no live worker anywhere, the scan never selects one. -/
theorem scanWorkers_none_complete (ws : List Worker) (next : Nat)
    (hall : ∀ w ∈ ws, w.running = false) :
    ∀ rem i, scanWorkers ws next i rem = none := by
  intro rem
  induction rem with
  | zero => intro i; rfl
  | succ rem ih =>
    intro i
    cases hget : ws[(next + i) % ws.length]? with
    | none => simp [scanWorkers, hget]
    | some w =>
      have hw := hall w (List.getElem?_mem hget)
      simp [scanWorkers, hget, hw, ih (i + 1)]

/-- Helper: every slot index is reached by the wrapping cursor within one full
revolution. -/
theorem exists_cursor_offset (len next j : Nat) (hlen : 0 < len)
    (hj : j < len) : ∃ k, k < len ∧ (next + k) % len = j := by
  have ha : next % len < len := Nat.mod_lt _ hlen
  by_cases hcase : next % len ≤ j
  · refine ⟨j - next % len, by omega, ?_⟩
    rw [Nat.add_mod]
    have h1 : (j - next % len) % len = j - next % len := Nat.mod_eq_of_lt (by omega)
    rw [h1]
    have h2 : next % len + (j - next % len) = j := by omega
    rw [h2]
    exact Nat.mod_eq_of_lt hj
  · refine ⟨j + len - next % len, by omega, ?_⟩
    rw [Nat.add_mod]
    have h1 : (j + len - next % len) % len = j + len - next % len :=
      Nat.mod_eq_of_lt (by omega)
    rw [h1]
    have h2 : next % len + (j + len - next % len) = j + len := by omega
    rw [h2]
    rw [Nat.add_mod_right]
    exact Nat.mod_eq_of_lt hj

/-- Claim C4 (counterexample): the claim says Dispatch "records that worker's
currentJobID". In the code the `Worker` struct has no current-job field and
`SubmitJob` mutates nothing but the cursor: at a concrete two-worker pool the
dispatch of `"jobA"` succeeds with the worker slice left exactly as it was
(only `nextWorker` advanced), and the resulting pool state is identical for
two different job ids — so no per-worker record of the dispatched job id is
made anywhere. -/
theorem dispatch_records_no_job_id_cx :
    submitJob ⟨[⟨0, true⟩, ⟨1, true⟩], 0⟩ ⟨"jobA", "i2v", "{}"⟩
      = .ok (⟨[⟨0, true⟩, ⟨1, true⟩], 1⟩, 0, ⟨"job", "jobA"⟩)
    ∧ (submitJob ⟨[⟨0, true⟩, ⟨1, true⟩], 0⟩ ⟨"jobA", "i2v", "{}"⟩).map Prod.fst
      = (submitJob ⟨[⟨0, true⟩, ⟨1, true⟩], 0⟩ ⟨"jobB", "i2v", "{}"⟩).map Prod.fst := by
  exact ⟨rfl, rfl⟩

/-- Claim C4 (amended): for every call to `SubmitJob` on a nonempty pool, the
dispatcher scans from the rotating cursor with wraparound, selects the first
worker whose `running` flag is true, advances the cursor to the slot after the
selected worker, and writes the `{type: "job", job_id}` message to that
worker's stdin — without recording the job id anywhere in pool state; if no
worker is live it fails with the no-running-worker error instead of
dispatching. -/
theorem submitJob_round_robin_spec (m : Manager) (job : JobRequest)
    (hne : m.workers ≠ []) :
    ((∀ w ∈ m.workers, w.running = false) →
       submitJob m job = .error "no running workers available")
    ∧ ((∃ w ∈ m.workers, w.running = true) →
       ∃ off idx, off < m.workers.length
         ∧ idx = (m.nextWorker + off) % m.workers.length
         ∧ runningAt m.workers idx = true
         ∧ (∀ k, k < off →
             runningAt m.workers ((m.nextWorker + k) % m.workers.length) = false)
         ∧ submitJob m job
             = .ok ({ m with nextWorker := (idx + 1) % m.workers.length }, idx,
                    ⟨"job", job.id⟩)) := by
  have hlen : 0 < m.workers.length := List.length_pos.mpr hne
  constructor
  · intro hall
    have hnone : findRunning m.workers m.nextWorker = none :=
      scanWorkers_none_complete m.workers m.nextWorker hall m.workers.length 0
    have h0 : ¬ (m.workers.length = 0) := by omega
    simp [submitJob, h0, hnone]
  · intro hlive
    cases hfind : findRunning m.workers m.nextWorker with
    | none =>
      exfalso
      obtain ⟨w, hw, hrun⟩ := hlive
      obtain ⟨j, hj, hget⟩ := List.mem_iff_getElem.mp hw
      obtain ⟨k, hk, hkj⟩ := exists_cursor_offset m.workers.length m.nextWorker j hlen hj
      have hdead := scanWorkers_none_sound m.workers m.nextWorker hne
        m.workers.length 0 hfind k hk
      rw [Nat.add_zero, hkj] at hdead
      rw [runningAt, List.getElem?_eq_getElem hj, hget] at hdead
      simp [hrun] at hdead
    | some idx =>
      obtain ⟨off, hoff, hidx, hliv, hprev⟩ :=
        scanWorkers_some_sound m.workers m.nextWorker m.workers.length 0 idx hfind
      refine ⟨off, idx, hoff, by simpa using hidx, hliv, ?_, ?_⟩
      · intro k hk
        have := hprev k hk
        rwa [Nat.add_zero] at this
      · have h0 : ¬ (m.workers.length = 0) := by omega
        simp [submitJob, h0, hfind]

/-- Witness for the amended C4 theorem at `rrDemoManager`: the scan skips the
dead slot 0 and dispatches to slot 1. -/
theorem submitJob_round_robin_spec_witness :
    ∃ off idx, off < rrDemoManager.workers.length
      ∧ idx = (rrDemoManager.nextWorker + off) % rrDemoManager.workers.length
      ∧ runningAt rrDemoManager.workers idx = true
      ∧ (∀ k, k < off →
          runningAt rrDemoManager.workers
            ((rrDemoManager.nextWorker + k) % rrDemoManager.workers.length) = false)
      ∧ submitJob rrDemoManager ⟨"j7", "i2v", "{}"⟩
          = .ok ({ rrDemoManager with
                    nextWorker := (idx + 1) % rrDemoManager.workers.length }, idx,
                 ⟨"job", "j7"⟩) :=
  (submitJob_round_robin_spec rrDemoManager ⟨"j7", "i2v", "{}"⟩ (by decide)).2
    ⟨⟨1, true⟩, by decide, rfl⟩

/-- Helper: `UPDATE ... WHERE id = ?` on the row found by `GetJob` — the
progress variant. -/
theorem getJob_updateJobProgress (db : Ledger.DB) (id : String) (p : ℚ)
    (s : String) (now : Nat) (j : Ledger.Job) (hj : getJob db id = some j) :
    getJob (updateJobProgress db id p s now) id
      = some { j with progress := p, stage := s, updatedAt := now } := by
  induction db with
  | nil => simp [getJob] at hj
  | cons a l ih =>
    by_cases h : a.id = id
    · rw [getJob, List.find?_cons_of_pos _ (by simpa using h)] at hj
      injection hj with hj
      subst hj
      rw [updateJobProgress, List.map_cons, if_pos h, getJob,
        List.find?_cons_of_pos _ (by simpa using h)]
    · rw [getJob, List.find?_cons_of_neg _ (by simpa using h)] at hj
      rw [updateJobProgress, List.map_cons, if_neg h, getJob,
        List.find?_cons_of_neg _ (by simpa using h)]
      exact ih hj

/-- Helper: `UPDATE ... WHERE id = ?` on the row found by `GetJob` — the
complete variant. -/
theorem getJob_completeJob (db : Ledger.DB) (id out : String) (now : Nat)
    (j : Ledger.Job) (hj : getJob db id = some j) :
    getJob (completeJob db id out now) id
      = some { j with status := "completed", output := out, updatedAt := now } := by
  induction db with
  | nil => simp [getJob] at hj
  | cons a l ih =>
    by_cases h : a.id = id
    · rw [getJob, List.find?_cons_of_pos _ (by simpa using h)] at hj
      injection hj with hj
      subst hj
      rw [completeJob, List.map_cons, if_pos h, getJob,
        List.find?_cons_of_pos _ (by simpa using h)]
    · rw [getJob, List.find?_cons_of_neg _ (by simpa using h)] at hj
      rw [completeJob, List.map_cons, if_neg h, getJob,
        List.find?_cons_of_neg _ (by simpa using h)]
      exact ih hj

/-- Helper: ledger mutations are no-ops when the id is absent. -/
theorem ledger_noop_of_absent (db : Ledger.DB) (id : String) (p : ℚ)
    (s out : String) (now : Nat) (habs : getJob db id = none) :
    updateJobProgress db id p s now = db ∧ completeJob db id out now = db := by
  have hall : ∀ j ∈ db, ¬ j.id = id := by
    intro j hjmem
    have := (List.find?_eq_none.mp habs) j hjmem
    simpa using this
  clear habs
  induction db with
  | nil => exact ⟨rfl, rfl⟩
  | cons a l ih =>
    have ha : ¬ a.id = id := hall a (by simp)
    have hl := ih (fun j hjmem => hall j (by simp [hjmem]))
    refine ⟨?_, ?_⟩
    · rw [updateJobProgress, List.map_cons, if_neg ha]
      rw [updateJobProgress] at hl
      rw [hl.1]
    · rw [completeJob, List.map_cons, if_neg ha]
      rw [completeJob] at hl
      rw [hl.2]

/-- Claim C5 (counterexample): on a row in status `running` with progress 1, a
progress event carrying 0 is applied — progress decreases while running; and
after the row reaches the terminal `completed` status, a late progress event
still mutates it (progress, stage and `updated_at` all change) instead of
being dropped. -/
theorem ledger_late_event_applied_cx :
    updateJobProgress [⟨"j", "i2v", "running", 1, "render", "{}", "", "", 0, 1⟩]
        "j" 0 "late" 2
      = [⟨"j", "i2v", "running", 0, "late", "{}", "", "", 0, 2⟩]
    ∧ updateJobProgress
        (completeJob [⟨"j", "i2v", "running", 1, "render", "{}", "", "", 0, 1⟩]
          "j" "out.mp4" 3) "j" 0 "dup" 4
      = [⟨"j", "i2v", "completed", 0, "dup", "{}", "out.mp4", "", 0, 4⟩] := by
  exact ⟨rfl, rfl⟩

/-- Claim C5 (amended): ledger events are applied unconditionally to the
matching row: `UpdateJobProgress` overwrites progress and stage whatever the
row's current status or prior progress (so progress may decrease while
running, and rows in a terminal status are still mutated by later events), and
`CompleteJob` overwrites status and output whatever the prior status;
mutations are no-ops only when the target id is absent. -/
theorem ledger_updates_unconditional (db : Ledger.DB) (id : String) (p : ℚ)
    (s out : String) (now : Nat) :
    (∀ j, getJob db id = some j →
      getJob (updateJobProgress db id p s now) id
          = some { j with progress := p, stage := s, updatedAt := now }
        ∧ getJob (completeJob db id out now) id
          = some { j with status := "completed", output := out, updatedAt := now })
    ∧ (getJob db id = none →
        updateJobProgress db id p s now = db ∧ completeJob db id out now = db) :=
  ⟨fun j hj => ⟨getJob_updateJobProgress db id p s now j hj,
     getJob_completeJob db id out now j hj⟩,
   fun habs => ledger_noop_of_absent db id p s out now habs⟩

/-- Witness for the amended C5 theorem: a late progress event with value 0 is
applied to the terminal row `doneRow` (progress had been 1). -/
theorem ledger_updates_unconditional_witness :
    getJob (updateJobProgress [doneRow] "j" 0 "late" 4) "j"
        = some { doneRow with progress := 0, stage := "late", updatedAt := 4 }
      ∧ getJob (completeJob [doneRow] "j" "out2.mp4" 4) "j"
        = some { doneRow with
                   status := "completed", output := "out2.mp4", updatedAt := 4 } :=
  (ledger_updates_unconditional [doneRow] "j" 0 "late" "out2.mp4" 4).1
    doneRow rfl

/-- Claim C7 (counterexample): with job `X` created `pending`, a worker
progress event routed through the wired callback (`SetCallbacks` in
`cmd/server/main.go`) leaves the ledger record completely untouched — in
particular the status stays `pending` and is NOT flipped to `running` as the
claim states (the callback only broadcasts to the hub). -/
theorem worker_event_keeps_pending_cx :
    (onProgressCallback ⟨[pendingRowX], []⟩ ⟨"X", 1/2, "halfway"⟩).db
      = [pendingRowX]
    ∧ (getJob (onProgressCallback ⟨[pendingRowX], []⟩ ⟨"X", 1/2, "halfway"⟩).db
        "X").map Ledger.Job.status = some "pending"
    ∧ "pending" ≠ "running" := by
  exact ⟨rfl, rfl, by decide⟩

/-- Claim C7 (amended): for a job `X` created `pending`, an
`UpdateProgress(X, p, s)` through the ledger API directly changes only
progress, stage and the updated timestamp and leaves status `pending`, while
the same progress update arriving through the supervisor's worker-event path
does not touch the ledger at all (status stays `pending` there too): it only
appends a `job:progress` broadcast to the hub. -/
theorem progress_direct_vs_worker_path (st : ServerState) (id : String)
    (p : ℚ) (s : String) (now : Nat) (j : Ledger.Job)
    (hj : getJob st.db id = some j) (hpend : j.status = "pending") :
    (getJob (updateJobProgress st.db id p s now) id
        = some { j with progress := p, stage := s, updatedAt := now }
      ∧ ({ j with progress := p, stage := s, updatedAt := now } : Ledger.Job).status
        = "pending")
    ∧ (onProgressCallback st ⟨id, p, s⟩).db = st.db
    ∧ (onProgressCallback st ⟨id, p, s⟩).hubBroadcasts
        = st.hubBroadcasts ++ [("job:progress", id)] :=
  ⟨⟨getJob_updateJobProgress st.db id p s now j hj, hpend⟩, rfl, rfl⟩

/-- Witness for the amended C7 theorem at the concrete pending job `X` with
progress 1/2 and stage `halfway`. -/
theorem progress_direct_vs_worker_path_witness :
    (getJob (updateJobProgress [pendingRowX] "X" (1/2) "halfway" 5) "X"
        = some { pendingRowX with
                   progress := 1/2, stage := "halfway", updatedAt := 5 }
      ∧ ({ pendingRowX with
             progress := 1/2, stage := "halfway", updatedAt := 5 } :
            Ledger.Job).status = "pending")
    ∧ (onProgressCallback ⟨[pendingRowX], []⟩ ⟨"X", 1/2, "halfway"⟩).db
        = [pendingRowX]
    ∧ (onProgressCallback ⟨[pendingRowX], []⟩ ⟨"X", 1/2, "halfway"⟩).hubBroadcasts
        = [] ++ [("job:progress", "X")] :=
  progress_direct_vs_worker_path ⟨[pendingRowX], []⟩ "X" (1/2) "halfway" 5
    pendingRowX rfl rfl

/-- Claim C9: in every workflow submission handler (I2V, SVI and Qwen share
the embedded tail), when `CreateJob` succeeds for a fresh job id but the
subsequent `Enqueue` fails, the handler answers with the 500
"Failed to queue job" error while the newly created `pending` ledger row is
left in place and nothing reaches the queue — the ledger-insert-plus-enqueue
pair is not atomic on error. -/
theorem submit_enqueue_failure_keeps_record (db : Ledger.DB)
    (queued : List (String × String)) (jobID wfType paramsJSON : String)
    (now : Nat) (hfresh : ∀ j ∈ db, ¬ j.id = jobID) :
    (handleWorkflowSubmit db queued jobID wfType paramsJSON false now).response
        = .httpError "Failed to queue job" 500
    ∧ getJob (handleWorkflowSubmit db queued jobID wfType paramsJSON false now).db
        jobID
        = some ⟨jobID, wfType, "pending", 0, "", paramsJSON, "", "", now, now⟩
    ∧ (handleWorkflowSubmit db queued jobID wfType paramsJSON false now).queued
        = queued := by
  have hany : db.any (fun j => j.id = jobID) = false := by
    rw [List.any_eq_false]
    intro j hj
    simpa using hfresh j hj
  have hfind : db.find? (fun j => j.id = jobID) = none :=
    List.find?_eq_none.mpr (fun j hj => by simpa using hfresh j hj)
  have hcreate : createJob db jobID wfType "pending" paramsJSON now
      = some (db ++ [⟨jobID, wfType, "pending", 0, "", paramsJSON, "", "", now, now⟩]) := by
    rw [createJob, if_neg (by simp [hany])]
  refine ⟨?_, ?_, ?_⟩
  · simp [handleWorkflowSubmit, hcreate]
  · simp only [handleWorkflowSubmit, hcreate, Bool.false_eq_true, if_false,
      getJob, List.find?_append, hfind, Option.none_or]
    rw [List.find?_cons_of_pos _ (by simp)]
  · simp [handleWorkflowSubmit, hcreate]

/-- Witness for the C9 theorem: submitting job `w1` against an empty ledger
with a failing broker keeps the pending row and enqueues nothing. -/
theorem submit_enqueue_failure_keeps_record_witness :
    (handleWorkflowSubmit [] [] "w1" "qwen" "{}" false 7).response
        = .httpError "Failed to queue job" 500
    ∧ getJob (handleWorkflowSubmit [] [] "w1" "qwen" "{}" false 7).db "w1"
        = some ⟨"w1", "qwen", "pending", 0, "", "{}", "", "", 7, 7⟩
    ∧ (handleWorkflowSubmit [] [] "w1" "qwen" "{}" false 7).queued = [] :=
  submit_enqueue_failure_keeps_record [] [] "w1" "qwen" "{}" 7
    (fun j hj => absurd hj (List.not_mem_nil j))

/-- Helper: the broadcast arm of the hub loop keeps exactly the clients with
buffer space (delivering the event to each) and closes the others. -/
theorem broadcastStep_eq (cs : List Client) (m : String) :
    broadcastStep cs m
      = ((cs.filter (fun c => c.send.length < sendCap)).map
           (fun c => { c with send := c.send ++ [m] }),
         (cs.filter (fun c => ¬ c.send.length < sendCap)).map Client.cid) := by
  induction cs with
  | nil => rfl
  | cons a l ih =>
    by_cases h : a.send.length < sendCap
    · simp only [broadcastStep, List.foldr_cons] at ih ⊢
      simp [List.filter_cons, h, ih, Nat.not_lt]
    · simp only [broadcastStep, List.foldr_cons] at ih ⊢
      simp [List.filter_cons, h, ih, Nat.not_lt, Nat.not_lt.mp h]

/-- Claim C6: on every `Broadcast(event)`, each registered client with space
in its bounded private outbound buffer receives the event appended to that
buffer and stays registered, while every client whose buffer is full at that
moment is forcibly unregistered (its identity disappears from the client set)
and disconnected (its channel is closed, which terminates its writer) without
blocking the broadcaster; pointer identities of registered clients are
distinct, which the `cid` Nodup hypothesis models. -/
theorem broadcast_isolates_saturated_client (cs : List Client) (m : String)
    (hnd : (cs.map Client.cid).Nodup) :
    ∀ c ∈ cs,
      (c.send.length < sendCap →
        ({ c with send := c.send ++ [m] } : Client) ∈ (broadcastStep cs m).1)
      ∧ (¬ c.send.length < sendCap →
        c.cid ∈ (broadcastStep cs m).2
        ∧ ∀ c' ∈ (broadcastStep cs m).1, c'.cid ≠ c.cid) := by
  intro c hc
  rw [broadcastStep_eq]
  constructor
  · intro hsp
    exact List.mem_map_of_mem _ (List.mem_filter.mpr ⟨hc, by simpa using hsp⟩)
  · intro hfull
    constructor
    · exact List.mem_map_of_mem _ (List.mem_filter.mpr ⟨hc, by simpa using hfull⟩)
    · intro c' hc' heq
      obtain ⟨d, hd, hdc⟩ := List.mem_map.mp hc'
      obtain ⟨hdmem, hdsp⟩ := List.mem_filter.mp hd
      have hcid : d.cid = c.cid := by rw [← heq, ← hdc]
      have hdc' : d = c := List.inj_on_of_nodup_map hnd hdmem hc hcid
      rw [hdc'] at hdsp
      simp at hdsp
      exact hfull hdsp

/-- Witness for the C6 theorem: broadcasting to three observers where `wcSat`
has a saturated buffer delivers the event to `wcOpen1` and `wcOpen3` while
`wcSat` is removed and closed. -/
theorem broadcast_isolates_saturated_client_witness :
    ({ wcOpen1 with send := wcOpen1.send ++ ["evt"] } : Client)
        ∈ (broadcastStep [wcOpen1, wcSat, wcOpen3] "evt").1
    ∧ ({ wcOpen3 with send := wcOpen3.send ++ ["evt"] } : Client)
        ∈ (broadcastStep [wcOpen1, wcSat, wcOpen3] "evt").1
    ∧ wcSat.cid ∈ (broadcastStep [wcOpen1, wcSat, wcOpen3] "evt").2
    ∧ ∀ c' ∈ (broadcastStep [wcOpen1, wcSat, wcOpen3] "evt").1,
        c'.cid ≠ wcSat.cid := by
  have h := broadcast_isolates_saturated_client [wcOpen1, wcSat, wcOpen3] "evt"
    (by decide)
  have hfull : ¬ wcSat.send.length < sendCap := by
    rw [show wcSat.send = List.replicate sendCap "x" from rfl,
      List.length_replicate]
    exact Nat.lt_irrefl _
  have hsat := (h wcSat (List.mem_cons_of_mem _ (List.mem_cons_self _ _))).2 hfull
  exact ⟨(h wcOpen1 (List.mem_cons_self _ _)).1 (by decide),
    (h wcOpen3 (List.mem_cons_of_mem _ (List.mem_cons_of_mem _
      (List.mem_cons_self _ _)))).1 (by decide), hsat.1, hsat.2⟩

/-- Claim C10: subscription state never influences delivery. First part: the
`readPump` control-frame switch mutates only the connection's `subscribedTo`
map, leaving identity and outbound buffer untouched, for subscribe,
unsubscribe, unknown-type and malformed frames alike. Second part
(noninterference): two hub states whose registered clients agree on identity
and buffered events — but carry arbitrary, possibly different, subscription
sets — deliver every broadcast identically: the surviving clients agree
pairwise on identity and buffer (including the new event) and the very same
connections are closed. Hence the events each client receives are independent
of all subscribe/unsubscribe frames ever processed. -/
theorem broadcast_independent_of_subscriptions :
    (∀ (c : Client) (f : Frame),
      (handleFrame c f).cid = c.cid ∧ (handleFrame c f).send = c.send)
    ∧ (∀ (cs1 cs2 : List Client) (m : String),
        List.Forall₂ SameExceptSubs cs1 cs2 →
        List.Forall₂ SameExceptSubs (broadcastStep cs1 m).1 (broadcastStep cs2 m).1
        ∧ (broadcastStep cs1 m).2 = (broadcastStep cs2 m).2) := by
  constructor
  · intro c f
    cases f <;> exact ⟨rfl, rfl⟩
  · intro cs1 cs2 m h
    induction h with
    | nil => exact ⟨List.Forall₂.nil, rfl⟩
    | @cons a b l1 l2 hab hrest ih =>
      obtain ⟨hcid, hsend⟩ := hab
      obtain ⟨ih1, ih2⟩ := ih
      simp only [broadcastStep, List.foldr_cons] at ih1 ih2 ⊢
      by_cases hsp : a.send.length < sendCap
      · rw [if_pos hsp, if_pos (hsend ▸ hsp)]
        exact ⟨List.Forall₂.cons ⟨hcid, by rw [hsend]⟩ ih1, ih2⟩
      · rw [if_neg hsp, if_neg (hsend ▸ hsp)]
        exact ⟨ih1, by rw [hcid, ih2]⟩

/-- Witness for the C10 theorem: two one-client hubs differing only in the
client's subscription set deliver a broadcast identically. -/
theorem broadcast_independent_of_subscriptions_witness :
    List.Forall₂ SameExceptSubs
        (broadcastStep [⟨1, ["a"], ["jobQ"]⟩] "m").1
        (broadcastStep [⟨1, ["a"], []⟩] "m").1
    ∧ (broadcastStep [⟨1, ["a"], ["jobQ"]⟩] "m").2
        = (broadcastStep [⟨1, ["a"], []⟩] "m").2 :=
  broadcast_independent_of_subscriptions.2 [⟨1, ["a"], ["jobQ"]⟩]
    [⟨1, ["a"], []⟩] "m" (List.Forall₂.cons ⟨rfl, rfl⟩ List.Forall₂.nil)

end Diffbox
